import Mathlib

/-!
# Verification of the storycontentbot video compositing / caption-timing pipeline

Shallow embedding of the caption builders, the overlay-card reading-time and
crop computations, the subtitle time-rescale operation, the slide animation
curve and the render driver's error/cleanup control flow from `main.py`
(class `FFmpegVideoProcessor`), together with theorems settling the frozen
claims about them.

Machine arithmetic: all timestamps are integer milliseconds (Python ints),
modelled as `Nat`; floating-point quantities (reading time, speed multiplier,
aspect ratios) are modelled as `ℚ`, with Python `int(x)` on nonnegative `x`
modelled as `Nat.floor`.  The animation curve (which FFmpeg evaluates over
real time with `exp`/`sin`) is modelled over `ℝ`.
-/

/-! ## Python string helpers

`str.split()` (no argument) splits on runs of whitespace and drops empty
pieces; `str.strip()` removes leading/trailing whitespace; `str.upper()`
uppercases.  Modelled over the character list of the string. -/

/-- Accumulating splitter behind `pyWords`: walks the characters, collecting
the current word in reverse in `cur`; whitespace flushes the current word. -/
def pyWordsAux : List Char → List Char → List (List Char)
  | [], cur => if cur.isEmpty then [] else [cur.reverse]
  | c :: cs, cur =>
    if c.isWhitespace then
      if cur.isEmpty then pyWordsAux cs [] else cur.reverse :: pyWordsAux cs []
    else pyWordsAux cs (c :: cur)

/-- Python `s.split()`: whitespace-separated words, empties dropped. -/
def pyWords (s : String) : List String :=
  (pyWordsAux s.toList []).map (fun l => ⟨l⟩)

/-- `len(s.split())` — the word count used by the card renderer. -/
def pyWordCount (s : String) : Nat := (pyWords s).length

/-- Python `s.strip()`: drop leading and trailing whitespace. -/
def pyStrip (s : String) : String :=
  ⟨((s.toList.dropWhile Char.isWhitespace).reverse.dropWhile Char.isWhitespace).reverse⟩

/-- Python `s.upper()` (ASCII, as produced by the aligner). -/
def pyUpper (s : String) : String := ⟨s.toList.map Char.toUpper⟩

/-! ## Overlay card reading time (`_create_reddit_card`, main.py:1742-1750)

```python
word_count = len(title.split())
reading_time = max(3.0, word_count / 2.5)
if word_count > 15:
    reading_time += 1.0
```
-/

/-- Reading time derived from a word count, in seconds (exact rationals). -/
def readingTimeOfCount (wordCount : Nat) : ℚ :=
  let reading_time := max 3 ((wordCount : ℚ) / 2.5)
  if wordCount > 15 then reading_time + 1 else reading_time

/-- Reading time computed by `_create_reddit_card` from the original title. -/
def cardReadingTime (title : String) : ℚ :=
  readingTimeOfCount (pyWordCount title)

/-- C1: the reading time is `max(3, W/2.5)` plus `1` exactly when `W > 15`,
and in particular `5` words give `3.0` and `20` words give `9.0`. -/
theorem card_reading_time_formula (title : String) :
    cardReadingTime title =
      max 3 ((pyWordCount title : ℚ) / 2.5) +
        (if 15 < pyWordCount title then 1 else 0) ∧
    (pyWordCount title = 5 → cardReadingTime title = 3) ∧
    (pyWordCount title = 20 → cardReadingTime title = 9) := by
  refine ⟨?_, ?_, ?_⟩
  · unfold cardReadingTime readingTimeOfCount
    by_cases h : 15 < pyWordCount title
    · simp [h]
    · simp [h]
  · intro h
    unfold cardReadingTime readingTimeOfCount
    rw [h]
    norm_num
  · intro h
    unfold cardReadingTime readingTimeOfCount
    rw [h]
    norm_num

/-- Witness for C1 at concrete five-word and twenty-word titles. -/
theorem card_reading_time_formula_witness :
    pyWordCount "my cat did a thing" = 5 ∧
    cardReadingTime "my cat did a thing" = 3 := by
  refine ⟨by decide, ?_⟩
  exact (card_reading_time_formula "my cat did a thing").2.1 (by decide)

/-! ## Caption data model

`TimedWord` is the aligner's `(word, start_ms, end_ms)`; `SSAEvent` is a
pysubs2 subtitle event `(start, end, text)` (the `end` field is called `stop`
here because `end` is a Lean keyword).  All times are integer milliseconds. -/

structure TimedWord where
  text : String
  start : Nat
  stop : Nat
deriving DecidableEq

structure SSAEvent where
  start : Nat
  stop : Nat
  text : String
deriving DecidableEq

/-! ## Single-word caption policy (`_create_single_word_subtitles`, main.py:2196-2219)

```python
word_text = word_info["word"].strip().upper()
anim_duration = 200
animation = f"{{\\t(0,{anim_duration},2,\\fscx100\\fscy100)}}"
text_with_anim = f"{{\\fscx92\\fscy92}}{animation}{word_text}"
event = pysubs2.SSAEvent(start=int(start_time), end=int(end_time), text=text_with_anim)
```
-/

/-- The initial-scale override tag prepended to every single-word event:
the word starts at 92% scale. -/
def popScaleStart : String := "\x7b\\fscx92\\fscy92\x7d"

/-- The pop-animation transform tag: scales to 100% over the interval
`(0, animDuration)` milliseconds measured from the event's start, with
ASS acceleration exponent 2 (ease-out). -/
def popAnimationTag (animDuration : Nat) : String :=
  "\x7b\\t(0," ++ toString animDuration ++ ",2,\\fscx100\\fscy100)\x7d"

/-- `_create_single_word_subtitles` over a sequence of timed words. -/
def singleWordSubtitles (words : List TimedWord) : List SSAEvent :=
  words.map fun w =>
    let word_text := pyUpper (pyStrip w.text)
    let anim_duration := 200
    { start := w.start, stop := w.stop,
      text := popScaleStart ++ popAnimationTag anim_duration ++ word_text }

/-! ## Three-word grouped caption policy
(`_create_three_word_highlight_subtitles`, main.py:2254-2329) -/

/-- Word collection step: `word_info["word"].strip().upper()` (times are
already in integer milliseconds in this model). -/
def normalizeWord (w : TimedWord) : TimedWord :=
  { text := pyUpper (pyStrip w.text), start := w.start, stop := w.stop }

/-- `for i in range(0, len(all_words), 3): group = all_words[i:i+3]` —
successive chunks of three, the last chunk possibly shorter. -/
def groupsOf3 {α : Type} : List α → List (List α)
  | [] => []
  | [a] => [[a]]
  | [a, b] => [[a, b]]
  | a :: b :: c :: rest => [a, b, c] :: groupsOf3 rest

/-- The padding placeholder appended by the `while len(group) < 3` loop:
empty text, start and end equal to the previous last element's end. -/
def padWord (w : TimedWord) : TimedWord :=
  { text := "", start := w.stop, stop := w.stop }

/-- Pad a (nonempty) group up to exactly three entries with placeholders. -/
def padGroup : List TimedWord → List TimedWord
  | [a] => [a, padWord a, padWord a]
  | [a, b] => [a, b, padWord b]
  | g => g

/-- ASS override tag for the currently-spoken (highlighted) word. -/
def highlightTag : String := "\x7b\\c&H00FFFF&\\3c&H000000&\x7d"

/-- ASS override tag for the other (neutral, white) words of the group. -/
def neutralTag : String := "\x7b\\c&HFFFFFF&\\3c&H000000&\x7d"

/-- The display line for one highlight frame: every non-empty word of the
padded group, the word at `wordIdx` highlighted, joined with spaces. -/
def groupText (padded : List TimedWord) (wordIdx : Nat) : String :=
  String.intercalate " "
    (padded.enum.filterMap fun p =>
      if p.2.text = "" then none
      else some ((if p.1 = wordIdx then highlightTag else neutralTag) ++ p.2.text))

/-- The caption events emitted for one group: one event per non-empty word
of the padded group; the event runs from the word's start to the next word's
start when there is a next non-empty word, else to the group's end. -/
def groupEvents (group : List TimedWord) : List SSAEvent :=
  let padded := padGroup group
  let group_end := (padded.getLast?.map (fun w => w.stop)).getD 0
  padded.enum.filterMap fun p =>
    if p.2.text = "" then none
    else
      let highlight_end :=
        if p.1 < padded.length - 1 ∧ (((padded[p.1 + 1]?).map (fun w => w.text)).getD "") ≠ ""
        then ((padded[p.1 + 1]?).map (fun w => w.start)).getD 0
        else group_end
      some { start := p.2.start, stop := highlight_end, text := groupText padded p.1 }

/-- `_create_three_word_highlight_subtitles` over a sequence of timed words. -/
def threeWordSubtitles (words : List TimedWord) : List SSAEvent :=
  let all_words := words.map normalizeWord
  ((groupsOf3 all_words).map groupEvents).flatten

/-- `eventsChain es a b`: the events start at `a`, each event begins exactly
where the previous one ends (no gap), and the last one ends at `b`; so the
windows tile the interval from `a` to `b`. -/
def eventsChain : List SSAEvent → Nat → Nat → Prop
  | [], a, b => a = b
  | e :: es, a, b => e.start = a ∧ eventsChain es e.stop b

/-- C3: the single-word policy emits exactly one caption event per timed
word, in input order; each event keeps the word's own `[startMs, endMs)`
window, its text is the (stripped) word uppercased, and it is prefixed by the
92%-scale start tag plus the 200 ms pop transform tag anchored at offset 0,
i.e. applied only at the event's start. -/
theorem single_word_policy (words : List TimedWord) :
    (singleWordSubtitles words).length = words.length ∧
    List.Forall₂ (fun w e =>
        e.start = w.start ∧ e.stop = w.stop ∧
        e.text = popScaleStart ++ popAnimationTag 200 ++ pyUpper (pyStrip w.text))
      words (singleWordSubtitles words) := by
  constructor
  · simp [singleWordSubtitles]
  · simp only [singleWordSubtitles, List.forall₂_map_right_iff]
    exact List.forall₂_same.2 fun w _ => ⟨rfl, rfl, rfl⟩

/-- Number of chunks: `ceil(N/3) = (N+2)/3` in natural division. -/
theorem groupsOf3_length {α : Type} : ∀ l : List α,
    (groupsOf3 l).length = (l.length + 2) / 3
  | [] => by norm_num [groupsOf3]
  | [_] => by norm_num [groupsOf3]
  | [_, _] => by norm_num [groupsOf3]
  | _ :: _ :: _ :: rest => by
      have ih := groupsOf3_length rest
      simp only [groupsOf3, List.length_cons, ih]
      omega

/-- Concatenating the chunks gives back the original word sequence. -/
theorem groupsOf3_flatten {α : Type} : ∀ l : List α,
    (groupsOf3 l).flatten = l
  | [] => by simp [groupsOf3]
  | [_] => by simp [groupsOf3]
  | [_, _] => by simp [groupsOf3]
  | a :: b :: c :: rest => by
      have ih := groupsOf3_flatten rest
      simp [groupsOf3, ih]

/-- Every chunk has one, two or three elements, all drawn from the input. -/
theorem groupsOf3_shape {α : Type} : ∀ l : List α, ∀ g ∈ groupsOf3 l,
    ((∃ a, g = [a]) ∨ (∃ a b, g = [a, b]) ∨ (∃ a b c, g = [a, b, c])) ∧
      ∀ x ∈ g, x ∈ l
  | [], g, hg => by simp [groupsOf3] at hg
  | [a], g, hg => by
      simp only [groupsOf3, List.mem_singleton] at hg
      subst hg
      exact ⟨Or.inl ⟨a, rfl⟩, by simp⟩
  | [a, b], g, hg => by
      simp only [groupsOf3, List.mem_singleton] at hg
      subst hg
      exact ⟨Or.inr (Or.inl ⟨a, b, rfl⟩), by simp⟩
  | a :: b :: c :: rest, g, hg => by
      simp only [groupsOf3, List.mem_cons] at hg
      rcases hg with hg | hg
      · subst hg
        refine ⟨Or.inr (Or.inr ⟨a, b, c, rfl⟩), ?_⟩
        intro x hx
        simp only [List.mem_cons, List.not_mem_nil, or_false] at hx
        simp [List.mem_cons, hx]
        tauto
      · have ih := groupsOf3_shape rest g hg
        refine ⟨ih.1, fun x hx => ?_⟩
        have := ih.2 x hx
        simp [List.mem_cons, this]

theorem groupEvents_one (a : TimedWord) (ha : a.text ≠ "") :
    groupEvents [a] =
      [{ start := a.start, stop := a.stop, text := groupText (padGroup [a]) 0 }] := by
  simp [groupEvents, padGroup, padWord, ha, List.enum, List.enumFrom, List.filterMap_cons]

theorem groupEvents_two (a b : TimedWord) (ha : a.text ≠ "") (hb : b.text ≠ "") :
    groupEvents [a, b] =
      [{ start := a.start, stop := b.start, text := groupText (padGroup [a, b]) 0 },
       { start := b.start, stop := b.stop, text := groupText (padGroup [a, b]) 1 }] := by
  simp [groupEvents, padGroup, padWord, ha, hb, List.enum, List.enumFrom, List.filterMap_cons]

theorem groupEvents_three (a b c : TimedWord) (ha : a.text ≠ "") (hb : b.text ≠ "")
    (hc : c.text ≠ "") :
    groupEvents [a, b, c] =
      [{ start := a.start, stop := b.start, text := groupText (padGroup [a, b, c]) 0 },
       { start := b.start, stop := c.start, text := groupText (padGroup [a, b, c]) 1 },
       { start := c.start, stop := c.stop, text := groupText (padGroup [a, b, c]) 2 }] := by
  simp [groupEvents, padGroup, padWord, ha, hb, hc, List.enum, List.enumFrom, List.filterMap_cons]

theorem pyUpper_eq_empty_iff (s : String) : pyUpper s = "" ↔ s = "" := by
  cases s with
  | mk data => simp [pyUpper, String.toList, String.ext_iff]

theorem three_word_groupwise (words : List TimedWord)
    (hne : ∀ w ∈ words, pyStrip w.text ≠ "") :
    ∀ g ∈ groupsOf3 (words.map normalizeWord),
      (groupEvents g).map (fun e => e.start) = g.map (fun w => w.start) ∧
      eventsChain (groupEvents g) ((g.head?.map (fun w => w.start)).getD 0)
        ((g.getLast?.map (fun w => w.stop)).getD 0) ∧
      (groupEvents g).length = g.length := by
  have hne' : ∀ w ∈ words.map normalizeWord, w.text ≠ "" := by
    intro w hw
    obtain ⟨w0, hw0, rfl⟩ := List.mem_map.1 hw
    simpa [normalizeWord, pyUpper_eq_empty_iff] using hne w0 hw0
  intro g hg
  obtain ⟨hshapes, hsub⟩ := groupsOf3_shape (words.map normalizeWord) g hg
  have hgne : ∀ x ∈ g, x.text ≠ "" := fun x hx => hne' x (hsub x hx)
  rcases hshapes with ⟨a, rfl⟩ | ⟨a, b, rfl⟩ | ⟨a, b, c, rfl⟩
  · rw [groupEvents_one a (hgne a (by simp))]
    simp [eventsChain]
  · rw [groupEvents_two a b (hgne a (by simp)) (hgne b (by simp))]
    simp [eventsChain]
  · rw [groupEvents_three a b c (hgne a (by simp)) (hgne b (by simp)) (hgne c (by simp))]
    simp [eventsChain]

/-- C2: over timed words whose (stripped) text is non-empty, the three-word
policy chunks the `N` words into `ceil(N/3)` groups, emits exactly `N`
caption events (one per non-empty word; padding placeholders emit none), and
within each group the events start at their word's start, each event ends
where the next begins (no gap), and together they tile the window from the
group's first word start to its last word end. -/
theorem three_word_policy (words : List TimedWord)
    (hne : ∀ w ∈ words, pyStrip w.text ≠ "") :
    (groupsOf3 (words.map normalizeWord)).length = (words.length + 2) / 3 ∧
    (threeWordSubtitles words).length = words.length ∧
    ∀ g ∈ groupsOf3 (words.map normalizeWord),
      (groupEvents g).map (fun e => e.start) = g.map (fun w => w.start) ∧
      eventsChain (groupEvents g) ((g.head?.map (fun w => w.start)).getD 0)
        ((g.getLast?.map (fun w => w.stop)).getD 0) := by
  have hgrp := three_word_groupwise words hne
  refine ⟨?_, ?_, fun g hg => ⟨(hgrp g hg).1, (hgrp g hg).2.1⟩⟩
  · rw [groupsOf3_length]
    simp
  · unfold threeWordSubtitles
    rw [List.length_flatten, List.map_map]
    have hcongr : (groupsOf3 (words.map normalizeWord)).map (List.length ∘ groupEvents) =
        (groupsOf3 (words.map normalizeWord)).map List.length :=
      List.map_congr_left (fun g hg => (hgrp g hg).2.2)
    rw [hcongr, ← List.length_flatten, groupsOf3_flatten]
    simp

/-- Witness for C2 on a concrete four-word sequence (two groups of sizes
three and one). -/
theorem three_word_policy_witness :
    (∀ w ∈ [TimedWord.mk "Hello" 0 400, TimedWord.mk "there" 400 820,
            TimedWord.mk "big" 900 1200, TimedWord.mk "world" 1200 1710],
       pyStrip w.text ≠ "") ∧
    (threeWordSubtitles [TimedWord.mk "Hello" 0 400, TimedWord.mk "there" 400 820,
        TimedWord.mk "big" 900 1200, TimedWord.mk "world" 1200 1710]).length = 4 := by
  refine ⟨by decide, ?_⟩
  exact (three_word_policy [TimedWord.mk "Hello" 0 400, TimedWord.mk "there" 400 820,
    TimedWord.mk "big" 900 1200, TimedWord.mk "world" 1200 1710] (by decide)).2.1

/-! ## Subtitle time rescale (`_adjust_subtitle_speed`, main.py:1764-1791)

```python
for line in subs:
    line.start = int(line.start / speed)
    line.end = int(line.end / speed)
```
pysubs2 times are nonnegative integer milliseconds, so Python `int()`
truncation is `Nat.floor` of the exact quotient. -/

/-- Divide every event timestamp by `speed`, truncating to milliseconds. -/
def adjustSubtitleSpeed (subs : List SSAEvent) (speed : ℚ) : List SSAEvent :=
  subs.map fun line =>
    { line with start := ⌊(line.start : ℚ) / speed⌋₊, stop := ⌊(line.stop : ℚ) / speed⌋₊ }

/-- Floor-division roundtrip bound: dividing by `S` and then by `1/S`, with
truncation after each step, never overshoots and loses less than `S + 1`. -/
theorem floor_speed_roundtrip (t : ℕ) (S : ℚ) (hS : 0 < S) :
    ⌊((⌊(t : ℚ) / S⌋₊ : ℚ) / (1 / S))⌋₊ ≤ t ∧
      (t : ℚ) < (⌊((⌊(t : ℚ) / S⌋₊ : ℚ) / (1 / S))⌋₊ : ℚ) + S + 1 := by
  rw [div_div_eq_mul_div, div_one]
  set r1 : ℕ := ⌊(t : ℚ) / S⌋₊ with hr1
  have hr1le : (r1 : ℚ) ≤ (t : ℚ) / S := Nat.floor_le (by positivity)
  have hr1lt : (t : ℚ) / S < r1 + 1 := Nat.lt_floor_add_one _
  have hmul_le : (r1 : ℚ) * S ≤ t := by
    calc (r1 : ℚ) * S ≤ (t : ℚ) / S * S := by
          exact mul_le_mul_of_nonneg_right hr1le hS.le
      _ = t := div_mul_cancel₀ _ hS.ne'
  constructor
  · calc ⌊(r1 : ℚ) * S⌋₊ ≤ ⌊(t : ℚ)⌋₊ := Nat.floor_le_floor hmul_le
      _ = t := Nat.floor_natCast t
  · have h1 : (t : ℚ) < ((r1 : ℚ) + 1) * S := by
      calc (t : ℚ) = (t : ℚ) / S * S := (div_mul_cancel₀ _ hS.ne').symm
        _ < ((r1 : ℚ) + 1) * S := by
            exact mul_lt_mul_of_pos_right hr1lt hS
    have h2 : (r1 : ℚ) * S < (⌊(r1 : ℚ) * S⌋₊ : ℚ) + 1 := Nat.lt_floor_add_one _
    nlinarith

/-- C4: `_adjust_subtitle_speed` divides every event's start and end by the
speed multiplier (truncating to whole milliseconds), and rescaling by `S`
then by `1/S` restores each original timestamp up to the accumulated
truncation: the restored time never exceeds the original and falls short of
it by less than `S + 1` milliseconds. -/
theorem adjust_subtitle_speed_rescale (subs : List SSAEvent) (S : ℚ) (hS : 0 < S) :
    (adjustSubtitleSpeed subs S).map (fun e => (e.start, e.stop)) =
      subs.map (fun e => (⌊(e.start : ℚ) / S⌋₊, ⌊(e.stop : ℚ) / S⌋₊)) ∧
    List.Forall₂ (fun e r =>
        r.start ≤ e.start ∧ (e.start : ℚ) < (r.start : ℚ) + S + 1 ∧
        r.stop ≤ e.stop ∧ (e.stop : ℚ) < (r.stop : ℚ) + S + 1)
      subs (adjustSubtitleSpeed (adjustSubtitleSpeed subs S) (1 / S)) := by
  constructor
  · simp [adjustSubtitleSpeed]
  · unfold adjustSubtitleSpeed
    rw [List.map_map]
    simp only [List.forall₂_map_right_iff, Function.comp]
    refine List.forall₂_same.2 fun e _ => ?_
    obtain ⟨h1, h2⟩ := floor_speed_roundtrip e.start S hS
    obtain ⟨h3, h4⟩ := floor_speed_roundtrip e.stop S hS
    exact ⟨h1, h2, h3, h4⟩

/-- Witness for C4: one event at `[1000, 2000)` rescaled by `S = 1.15`. -/
theorem adjust_subtitle_speed_rescale_witness :
    (0 : ℚ) < 1.15 ∧
    (adjustSubtitleSpeed [SSAEvent.mk 1000 2000 "w"] 1.15).map
        (fun e => (e.start, e.stop)) =
      [SSAEvent.mk 1000 2000 "w"].map
        (fun e => (⌊(e.start : ℚ) / 1.15⌋₊, ⌊(e.stop : ℚ) / 1.15⌋₊)) := by
  refine ⟨by norm_num, ?_⟩
  exact (adjust_subtitle_speed_rescale [SSAEvent.mk 1000 2000 "w"] 1.15 (by norm_num)).1

/-! ## 9:16 center crop (`create_video_ffmpeg`, main.py:1847-1860)

```python
target_ratio = 9/16
current_ratio = width / height
if current_ratio > target_ratio:
    new_width = int(height * target_ratio)
    crop_x = (width - new_width) // 2
    ... crop(new_width, height, crop_x, 0)
else:
    new_height = int(width / target_ratio)
    crop_y = (height - new_height) // 2
    ... crop(width, new_height, 0, crop_y)
```
-/

structure CropRect where
  w : Nat
  h : Nat
  x : Nat
  y : Nat
deriving DecidableEq

/-- The crop rectangle `(w, h, x, y)` computed for a `width × height` clip. -/
def computeCrop (width height : Nat) : CropRect :=
  let target_ratio : ℚ := 9 / 16
  let current_ratio : ℚ := (width : ℚ) / (height : ℚ)
  if current_ratio > target_ratio then
    let new_width := ⌊(height : ℚ) * target_ratio⌋₊
    { w := new_width, h := height, x := (width - new_width) / 2, y := 0 }
  else
    let new_height := ⌊(width : ℚ) / target_ratio⌋₊
    { w := width, h := new_height, x := 0, y := (height - new_height) / 2 }

/-- C5 counterexample: on a 1920×1080 source the crop width is the integer
truncation `int(1080 * 9/16) = 607`, which is NOT exactly `1080 × 9/16`
(`= 607.5`), and the crop is not exactly symmetric either: the left margin is
656 pixels while the right margin is 657. -/
theorem crop_1920x1080_not_exact :
    computeCrop 1920 1080 = { w := 607, h := 1080, x := 656, y := 0 } ∧
    ((607 : ℚ) ≠ (1080 : ℚ) * (9 / 16)) ∧
    1920 - 607 - 656 ≠ 656 := by
  refine ⟨?_, by norm_num, by decide⟩
  unfold computeCrop
  rw [if_pos (by norm_num)]
  have hfloor : ⌊(1080 : ℚ) * (9 / 16)⌋₊ = 607 := by
    rw [Nat.floor_eq_iff (by positivity)]
    norm_num
  simp [hfloor]

/-- C5 amended: when the source is wider than 9:16 the crop keeps the full
height and takes width `⌊height × 9/16⌋` (integer truncation), horizontally
centered to within one pixel (`x = ⌊(width-w)/2⌋`, the two margins differing
by at most one); otherwise it keeps the full width and takes height
`⌊width / (9/16)⌋`, vertically centered to within one pixel. -/
theorem crop_center_within_pixel (width height : Nat) (hh : 0 < height) :
    ((9 : ℚ) / 16 < (width : ℚ) / height →
      computeCrop width height =
        { w := ⌊(height : ℚ) * (9 / 16)⌋₊, h := height,
          x := (width - ⌊(height : ℚ) * (9 / 16)⌋₊) / 2, y := 0 } ∧
      ⌊(height : ℚ) * (9 / 16)⌋₊ < width ∧
      (computeCrop width height).x ≤
        width - (computeCrop width height).w - (computeCrop width height).x ∧
      width - (computeCrop width height).w - (computeCrop width height).x ≤
        (computeCrop width height).x + 1) ∧
    ((width : ℚ) / height ≤ 9 / 16 →
      computeCrop width height =
        { w := width, h := ⌊(width : ℚ) / (9 / 16)⌋₊, x := 0,
          y := (height - ⌊(width : ℚ) / (9 / 16)⌋₊) / 2 } ∧
      ⌊(width : ℚ) / (9 / 16)⌋₊ ≤ height ∧
      (computeCrop width height).y ≤
        height - (computeCrop width height).h - (computeCrop width height).y ∧
      height - (computeCrop width height).h - (computeCrop width height).y ≤
        (computeCrop width height).y + 1) := by
  have hhq : (0 : ℚ) < (height : ℚ) := by exact_mod_cast hh
  constructor
  · intro hwide
    have heq : computeCrop width height =
        { w := ⌊(height : ℚ) * (9 / 16)⌋₊, h := height,
          x := (width - ⌊(height : ℚ) * (9 / 16)⌋₊) / 2, y := 0 } := by
      unfold computeCrop
      rw [if_pos hwide]
    have hlt : ⌊(height : ℚ) * (9 / 16)⌋₊ < width := by
      rw [Nat.floor_lt (by positivity)]
      calc (height : ℚ) * (9 / 16) = 9 / 16 * height := by ring
        _ < width := (lt_div_iff₀ hhq).1 hwide
    refine ⟨heq, hlt, ?_, ?_⟩ <;> rw [heq] <;> dsimp <;> omega
  · intro hnarrow
    have heq : computeCrop width height =
        { w := width, h := ⌊(width : ℚ) / (9 / 16)⌋₊, x := 0,
          y := (height - ⌊(width : ℚ) / (9 / 16)⌋₊) / 2 } := by
      unfold computeCrop
      rw [if_neg (by simpa using hnarrow)]
    have hle : ⌊(width : ℚ) / (9 / 16)⌋₊ ≤ height := by
      have h1 : (width : ℚ) / (9 / 16) ≤ (height : ℚ) := by
        rw [div_le_iff₀ (by norm_num)]
        calc (width : ℚ) ≤ 9 / 16 * height := (div_le_iff₀ hhq).1 hnarrow
          _ = (height : ℚ) * (9 / 16) := by ring
      calc ⌊(width : ℚ) / (9 / 16)⌋₊ ≤ ⌊(height : ℚ)⌋₊ := Nat.floor_le_floor h1
        _ = height := Nat.floor_natCast height
    refine ⟨heq, hle, ?_, ?_⟩ <;> rw [heq] <;> dsimp <;> omega

/-- Witness for the amended C5 on the 1920×1080 source. -/
theorem crop_center_within_pixel_witness :
    ((0 : Nat) < 1080 ∧ (9 : ℚ) / 16 < (1920 : ℚ) / 1080) ∧
    computeCrop 1920 1080 =
      { w := ⌊(1080 : ℚ) * (9 / 16)⌋₊, h := 1080,
        x := (1920 - ⌊(1080 : ℚ) * (9 / 16)⌋₊) / 2, y := 0 } := by
  refine ⟨⟨by decide, by norm_num⟩, ?_⟩
  exact ((crop_center_within_pixel 1920 1080 (by decide)).1 (by norm_num)).1

/-! ## Slide-in overlay animation (`create_video_ffmpeg`, main.py:1929-1958)

FFmpeg overlay y-expression built by the driver (elapsed time `t` in
seconds within the overlay's visible window):

```python
slide_progress = min(t/0.8, 1.0)
eased = 1 - pow(1 - slide_progress, 3)
slide_y = H - (H - target) * eased
wobble = if(gt(t, 0.8), 40 * exp(-6.0*(t-0.8)) * sin(2*PI*2.5*(t-0.8)), 0)
y = if(lt(t, 1.4), slide_y + wobble, target)
```
with `target = (H-h)/2 - 150`.  Modelled over `ℝ`. -/

/-- The overlay's target vertical position, 150 px above center. -/
noncomputable def overlayTargetY (frameH cardH : ℝ) : ℝ := (frameH - cardH) / 2 - 150

/-- `min(t/0.8, 1.0)`: linear slide progress clamped at 1. -/
noncomputable def slideProgress (t : ℝ) : ℝ := min (t / 0.8) 1

/-- `1 - (1 - progress)^3`: cubic ease-out. -/
noncomputable def slideEased (t : ℝ) : ℝ := 1 - (1 - slideProgress t) ^ 3

/-- `H - (H - target) * eased`: eased position from off-screen bottom `H`. -/
noncomputable def slideY (frameH target t : ℝ) : ℝ :=
  frameH - (frameH - target) * slideEased t

/-- Decaying sinusoidal wobble, active only for `t > 0.8`. -/
noncomputable def wobble (t : ℝ) : ℝ :=
  if 0.8 < t then
    40 * Real.exp (-6 * (t - 0.8)) * Real.sin (2 * Real.pi * 2.5 * (t - 0.8))
  else 0

/-- The full y-position expression: slide + wobble before 1.4 s, frozen at
the target afterwards. -/
noncomputable def slideAnimY (frameH target t : ℝ) : ℝ :=
  if t < 1.4 then slideY frameH target t + wobble t else target

/-- Once the slide is complete (`t ≥ 0.8`) the ease factor is exactly 1. -/
theorem slideEased_of_ge (t : ℝ) (ht : 0.8 ≤ t) : slideEased t = 1 := by
  have hp : slideProgress t = 1 := by
    unfold slideProgress
    rw [min_eq_right]
    rw [le_div_iff₀ (by norm_num)]
    linarith
  simp [slideEased, hp]

/-- The wobble vanishes at the freeze boundary `t = 1.4`: the phase there is
`2π·2.5·0.6 = 3π`, a zero of the sine. -/
theorem wobble_at_freeze : wobble 1.4 = 0 := by
  unfold wobble
  rw [if_pos (by norm_num)]
  have hphase : 2 * Real.pi * 2.5 * ((1.4 : ℝ) - 0.8) = Real.pi + 2 * Real.pi := by
    ring_nf
  rw [hphase, Real.sin_add_two_pi, Real.sin_pi, mul_zero]

/-- The factor multiplied by the decaying envelope is continuous. -/
theorem wobble_continuous : Continuous wobble := by
  have hf : Continuous fun t : ℝ =>
      40 * Real.exp (-6 * (t - 0.8)) * Real.sin (2 * Real.pi * 2.5 * (t - 0.8)) := by
    fun_prop
  have hrw : wobble = fun t : ℝ =>
      if t ≤ 0.8 then 0
      else 40 * Real.exp (-6 * (t - 0.8)) * Real.sin (2 * Real.pi * 2.5 * (t - 0.8)) := by
    funext t
    by_cases h : t ≤ 0.8
    · rw [wobble, if_neg (not_lt.2 h), if_pos h]
    · rw [wobble, if_pos (not_le.1 h), if_neg h]
  rw [hrw]
  refine Continuous.if_le continuous_const hf continuous_id continuous_const ?_
  intro x hx
  subst hx
  norm_num

/-- C6: the slide animation starts at the off-screen bottom (`y(0) = H`),
reaches the target exactly at `t = 0.8` with the wobble term equal to 0 at
wobble start; between 0.8 s and 1.4 s the position is the target plus a
decaying sinusoid (amplitude 40 px, decay rate 6/s, frequency 2.5 Hz in the
elapsed time since slide completion); from 1.4 s on it is frozen at the
target; and the position is a continuous function of `t` (no jump at the
slide→wobble→freeze boundaries). -/
theorem slide_animation_curve (frameH cardH : ℝ) :
    slideAnimY frameH (overlayTargetY frameH cardH) 0 = frameH ∧
    slideAnimY frameH (overlayTargetY frameH cardH) 0.8 = overlayTargetY frameH cardH ∧
    wobble 0.8 = 0 ∧
    (∀ t : ℝ, 0.8 < t → t < 1.4 →
      slideAnimY frameH (overlayTargetY frameH cardH) t =
        overlayTargetY frameH cardH +
          40 * Real.exp (-6 * (t - 0.8)) * Real.sin (2 * Real.pi * 2.5 * (t - 0.8))) ∧
    (∀ t : ℝ, 1.4 ≤ t →
      slideAnimY frameH (overlayTargetY frameH cardH) t = overlayTargetY frameH cardH) ∧
    Continuous (slideAnimY frameH (overlayTargetY frameH cardH)) := by
  set T := overlayTargetY frameH cardH with hT
  have hwob08 : wobble 0.8 = 0 := by
    unfold wobble
    rw [if_neg (lt_irrefl _)]
  have hY : ∀ t : ℝ, 0.8 ≤ t → slideY frameH T t = T := by
    intro t ht
    rw [slideY, slideEased_of_ge t ht]
    ring
  refine ⟨?_, ?_, hwob08, ?_, ?_, ?_⟩
  · rw [slideAnimY, if_pos (by norm_num)]
    have h0 : wobble 0 = 0 := by
      unfold wobble
      rw [if_neg (by norm_num)]
    rw [h0, slideY]
    have : slideEased 0 = 0 := by
      unfold slideEased slideProgress
      norm_num
    rw [this]
    ring
  · rw [slideAnimY, if_pos (by norm_num), hY 0.8 le_rfl, hwob08, add_zero]
  · intro t h1 h2
    rw [slideAnimY, if_pos h2, hY t h1.le, wobble, if_pos h1]
  · intro t ht
    rw [slideAnimY, if_neg (not_lt.2 ht)]
  · have hg : Continuous fun t => slideY frameH T t + wobble t := by
      have hsp : Continuous slideProgress := by
        unfold slideProgress
        exact (continuous_id.div_const _).min continuous_const
      have hse : Continuous slideEased := by
        unfold slideEased
        exact continuous_const.sub ((continuous_const.sub hsp).pow 3)
      have hsy : Continuous (slideY frameH T) := by
        unfold slideY
        exact continuous_const.sub (continuous_const.mul hse)
      exact hsy.add wobble_continuous
    have hrw : slideAnimY frameH T = fun t : ℝ =>
        if 1.4 ≤ t then T else slideY frameH T t + wobble t := by
      funext t
      by_cases h : t < 1.4
      · rw [slideAnimY, if_pos h, if_neg (not_le.2 h)]
      · rw [slideAnimY, if_neg h, if_pos (not_lt.1 h)]
    rw [hrw]
    refine Continuous.if_le continuous_const hg continuous_const continuous_id ?_
    intro x hx
    rw [← hx, hY 1.4 (by norm_num), wobble_at_freeze, add_zero]

/-- Witness for C6 at `H = 1920`, card height 300, `t = 2` (frozen phase). -/
theorem slide_animation_curve_witness :
    (1.4 : ℝ) ≤ 2 ∧
    slideAnimY 1920 (overlayTargetY 1920 300) 2 = overlayTargetY 1920 300 := by
  refine ⟨by norm_num, ?_⟩
  exact (slide_animation_curve 1920 300).2.2.2.2.1 2 (by norm_num)

/-! ## Card rasterization fallback (`_create_reddit_card`, main.py:1245-1756)

The whole rasterization body runs inside `try: ... except Exception:
return None, 3.0`.  The body (PIL drawing, file save, reading-time
computation) is modelled as an `Except` outcome: `.ok (cardPath,
readingTime)` when it completes, `.error e` when anything in it throws. -/

/-- Result of `_create_reddit_card`: the body's value on success, the
`(None, 3.0)` fallback when the body throws. -/
def createRedditCardResult (body : Except String (String × ℚ)) : Option String × ℚ :=
  match body with
  | .ok r => (some r.1, r.2)
  | .error _ => (none, 3)

/-- The card step of `create_video_ffmpeg` (main.py:1824-1834): with no
`reddit_info` the card is skipped and the default reading time 3.0 is used;
otherwise `_create_reddit_card` is consulted. -/
def cardStep (redditInfo : Option Unit) (body : Except String (String × ℚ)) :
    Option String × ℚ :=
  match redditInfo with
  | some _ => createRedditCardResult body
  | none => (none, 3)

/-- The overlay guard of `create_video_ffmpeg` (main.py:1891):
`if reddit_card_path and os.path.exists(reddit_card_path)`. -/
def overlayEnabled (redditCardPath : Option String) (fileExists : Bool) : Bool :=
  match redditCardPath with
  | some _ => fileExists
  | none => false

/-- C7: whenever the card rasterization body throws, `_create_reddit_card`
returns `(none, 3.0)` (it never re-raises: the result is a value for every
outcome), and the render pipeline's overlay guard then disables the card
overlay, so the render proceeds without one. -/
theorem card_error_fallback (redditInfo : Option Unit) (e : String) (fileExists : Bool) :
    cardStep redditInfo (.error e) = (none, 3) ∧
    overlayEnabled (cardStep redditInfo (.error e)).1 fileExists = false := by
  cases redditInfo <;> exact ⟨rfl, rfl⟩

/-! ## Python string utilities used by file cleanup -/

/-- Fuel-driven worker for `pyReplace`; the fuel starts at the input length
and strictly bounds the number of characters still to examine. -/
def listReplaceAux (pat rep : List Char) : Nat → List Char → List Char
  | 0, l => l
  | _ + 1, [] => []
  | fuel + 1, c :: cs =>
    if pat ≠ [] ∧ pat.isPrefixOf (c :: cs) then
      rep ++ listReplaceAux pat rep fuel ((c :: cs).drop pat.length)
    else
      c :: listReplaceAux pat rep fuel cs

/-- Python `s.replace(pat, rep)`: left-to-right, non-overlapping replacement
of every occurrence (for the non-empty patterns the code uses). -/
def pyReplace (s pat rep : String) : String :=
  ⟨listReplaceAux pat.toList rep.toList s.toList.length s.toList⟩

/-- Python `s.endswith(suffix)`. -/
def pyEndsWith (s suffix : String) : Bool := suffix.toList.isSuffixOf s.toList

/-! ## Subtitle speed-adjustment run (`_adjust_subtitle_speed`, main.py:1764-1791)

```python
try:
    subs = pysubs2.load(subtitle_file)
    for line in subs: ...divide timestamps...
    adjusted_file = subtitle_file.replace(file_ext, f'_speed{speed}{file_ext}')
    subs.save(adjusted_file)
    return adjusted_file
except Exception:
    return subtitle_file
```
The file store is a list of `(path, track)` pairs; the import/load is the
fallible step, modelled as an `Except` outcome. -/

/-- `subtitle_file.replace(file_ext, f'_speed{speed}{file_ext}')` with
`file_ext = '.ass' if subtitle_file.endswith('.ass') else '.srt'` and
`speedLabel` the decimal rendering of the speed (e.g. `"1.15"`). -/
def adjustedSubtitlePath (subtitleFile speedLabel : String) : String :=
  let file_ext := if pyEndsWith subtitleFile ".ass" then ".ass" else ".srt"
  pyReplace subtitleFile file_ext ("_speed" ++ speedLabel ++ file_ext)

/-- One run of `_adjust_subtitle_speed` over the file store: on success the
rescaled track is saved under the derived name and that name returned; if
the body throws, the original path is returned and the store is untouched. -/
def adjustSubtitleSpeedRun (subtitle_file : String) (speed : ℚ) (speedLabel : String)
    (loadResult : Except String (List SSAEvent))
    (store : List (String × List SSAEvent)) :
    String × List (String × List SSAEvent) :=
  match loadResult with
  | .error _ => (subtitle_file, store)
  | .ok subs =>
      let adjusted_file := adjustedSubtitlePath subtitle_file speedLabel
      (adjusted_file, (adjusted_file, adjustSubtitleSpeed subs speed) :: store)

/-- C10: when the time-rescale body throws, `_adjust_subtitle_speed` returns
the original subtitle path and leaves the file store — in particular the
original track — unmodified; the result is an ordinary return value, so the
caller (`create_video_ffmpeg`) simply keeps rendering with the un-rescaled
captions instead of aborting. -/
theorem adjust_speed_error_fallback (subtitle_file : String) (speed : ℚ)
    (speedLabel : String) (e : String) (store : List (String × List SSAEvent)) :
    adjustSubtitleSpeedRun subtitle_file speed speedLabel (.error e) store =
      (subtitle_file, store) := rfl

/-! ## Render driver tail: encode, diagnostics, cleanup
(`create_video_ffmpeg`, main.py:2094-2133)

```python
try:
    try:
        ffmpeg.run(output, ...)
    except ffmpeg.Error as fe:
        ...print command and stderr verbatim...
        raise
    if subtitle_file and os.path.exists(subtitle_file):
        os.remove(subtitle_file)
        for ext in ['.srt', '.ass']:
            adjusted_sub = subtitle_file.replace(ext, f'_speed1.15{ext}')
            if os.path.exists(adjusted_sub):
                os.remove(adjusted_sub)
    # reddit card deliberately kept (os.remove commented out)
    return output_file
except Exception:
    return None
```
Note `subtitle_file` has been reassigned to the speed-adjusted path at
main.py:1870 before this point.  The file system is a list of paths;
`os.path.exists` is membership, `os.remove` is `List.erase`. -/

/-- Outcome of the `ffmpeg.run` encode invocation. -/
inductive FfmpegRunOutcome where
  | ok
  | ffmpegError (cmd : String) (stderr : String)

/-- The diagnostic lines printed by the inner `except ffmpeg.Error` handler:
the command and the captured stderr stream, verbatim, between markers. -/
def encodeFailureLog : FfmpegRunOutcome → List String
  | .ok => []
  | .ffmpegError cmd stderr =>
      ["❌ FFmpeg failed. Command: " ++ cmd,
       "── FFmpeg stderr (start) ──",
       stderr,
       "── FFmpeg stderr (end) ──"]

/-- The post-encode cleanup block (main.py:2113-2120), acting on the file
system. -/
def cleanupSubtitleFiles (subtitle_file : Option String) (files : List String) :
    List String :=
  match subtitle_file with
  | none => files
  | some f =>
      if f ∈ files then
        let files := files.erase f
        let adjusted_srt := pyReplace f ".srt" "_speed1.15.srt"
        let files := if adjusted_srt ∈ files then files.erase adjusted_srt else files
        let adjusted_ass := pyReplace f ".ass" "_speed1.15.ass"
        if adjusted_ass ∈ files then files.erase adjusted_ass else files
      else files

/-- The driver tail: on encode success, clean up and return the output path;
on encode failure the re-raised error is caught by the outer handler, which
returns `None` without running any cleanup. -/
def renderDriverTail (subtitle_file : Option String) (output_file : String)
    (encode : FfmpegRunOutcome) (files : List String) :
    Option String × List String :=
  match encode with
  | .ok => (some output_file, cleanupSubtitleFiles subtitle_file files)
  | .ffmpegError _ _ => (none, files)

/-- C8 evaluated at the failing input: the caption track was written to
`temp_subtitles_1.ass` and rescaled into `temp_subtitles_1_speed1.15.ass`,
which `subtitle_file` now names.  On a successful encode the cleanup deletes
only the speed-rescaled derivative: the original caption file survives
(erasing it is attempted under the doubly-suffixed name
`temp_subtitles_1_speed1.15_speed1.15.ass`, which does not exist).  On a
failed encode nothing at all is deleted.  The overlay card image is retained
in both cases. -/
theorem cleanup_leaves_caption_files :
    adjustedSubtitlePath "temp_subtitles_1.ass" "1.15" = "temp_subtitles_1_speed1.15.ass" ∧
    pyReplace "temp_subtitles_1_speed1.15.ass" ".ass" "_speed1.15.ass" =
      "temp_subtitles_1_speed1.15_speed1.15.ass" ∧
    renderDriverTail (some "temp_subtitles_1_speed1.15.ass") "out.mp4" .ok
        ["temp_subtitles_1.ass", "temp_subtitles_1_speed1.15.ass",
         "reddit_card_link_1.png"] =
      (some "out.mp4", ["temp_subtitles_1.ass", "reddit_card_link_1.png"]) ∧
    renderDriverTail (some "temp_subtitles_1_speed1.15.ass") "out.mp4"
        (.ffmpegError "ffmpeg" "boom")
        ["temp_subtitles_1.ass", "temp_subtitles_1_speed1.15.ass",
         "reddit_card_link_1.png"] =
      (none, ["temp_subtitles_1.ass", "temp_subtitles_1_speed1.15.ass",
              "reddit_card_link_1.png"]) := by
  refine ⟨by decide, by decide, by decide, by decide⟩

/-! ## Error-kind propagation out of `create_video_ffmpeg` -/

/-- A failure inside the `create_video_ffmpeg` pipeline; the constructors
keep which stage failed so we can compare what the caller observes. -/
inductive PipelineFailure where
  | probeFailed (msg : String)
  | encodeFailed (cmd : String) (stderr : String)

/-- What `create_video_ffmpeg` returns to its caller: the outer
`except Exception: return None` (main.py:2131-2133) turns every pipeline
failure into `None`. -/
def createVideoFfmpegReturn (result : Except PipelineFailure String) : Option String :=
  match result with
  | .ok output_file => some output_file
  | .error _ => none

/-- C9 counterexample: an encode failure and a probe failure produce the
same caller-observable result (`None`), so the encode failure is NOT
propagated as a distinct error kind — the caller cannot distinguish the two
failure modes. -/
theorem encode_failure_not_distinct :
    createVideoFfmpegReturn
        (.error (.encodeFailed "ffmpeg -i bg.mp4 ..." "Invalid filtergraph")) = none ∧
    createVideoFfmpegReturn (.error (.probeFailed "audio probe failed")) = none ∧
    createVideoFfmpegReturn
        (.error (.encodeFailed "ffmpeg -i bg.mp4 ..." "Invalid filtergraph")) =
      createVideoFfmpegReturn (.error (.probeFailed "audio probe failed")) :=
  ⟨rfl, rfl, rfl⟩

/-- C9 amended: on encoder failure the driver does capture and print the
encoder's stderr verbatim (it appears unaltered in the diagnostic lines) and
re-raises internally, but the outermost handler converts every pipeline
failure — encode or otherwise — into a `None` return, so no distinct error
kind reaches the caller. -/
theorem encode_failure_surfaced_then_swallowed (cmd stderr : String) :
    stderr ∈ encodeFailureLog (.ffmpegError cmd stderr) ∧
    (∀ f : PipelineFailure, createVideoFfmpegReturn (.error f) = none) := by
  constructor
  · simp [encodeFailureLog]
  · intro f
    cases f <;> rfl
